import Mathlib

/-!
Verification development for the local pattern learning and retrieval engine
(pattern store, confidence model, similarity matcher, message chunker).

Strings are modelled as lists of characters (`Str`).  SQLite `REAL` columns are
modelled as rationals (exact arithmetic over the same update rules).  A text
column that only ever holds the output of `JSON.stringify` and is read back via
`JSON.parse` is modelled by `BlobOf α`: either a well-formed serialization of a
structured value `α`, or arbitrary malformed text; `JSON.parse` is the partial
inverse (`BlobOf.parse`), `none` standing for a thrown `SyntaxError`.
-/

namespace SAC

abbrev Str := List Char

/-- `'%'`, the SQL `LIKE` multi-character wildcard. -/
def pctC : Char := '%'

/-- `'_'`, the SQL `LIKE` single-character wildcard. -/
def uscC : Char := '_'

/-- ASCII apostrophe, used to build the "let's ..." trigger phrases. -/
def apoC : Char := Char.ofNat 39

/-- JS `String.prototype.toLowerCase` (ASCII range, which is all the source uses). -/
def lowerStr (s : Str) : Str := s.map Char.toLower

/-- JS `String.prototype.includes`: `needle` occurs contiguously in the argument. -/
def isSubstr (needle : Str) : Str → Bool
  | [] => needle.isEmpty
  | c :: rest => needle.isPrefixOf (c :: rest) || isSubstr needle rest

/-- JS `String.prototype.trim` (whitespace stripped from both ends). -/
def trimStr (s : Str) : Str :=
  ((s.dropWhile Char.isWhitespace).reverse.dropWhile Char.isWhitespace).reverse

/-- `s.split(' ')[0]`: the characters before the first literal space. -/
def firstTok (s : Str) : Str := s.takeWhile (fun c => !(c = ' '))

/-- SQLite `LIKE` matching: `%` matches any sequence, `_` any single character,
letters compare case-insensitively (ASCII). -/
def likeMatch (p t : Str) : Bool :=
  match p, t with
  | [], t => t.isEmpty
  | c :: p', t =>
    if c = pctC then
      likeMatch p' t ||
        (match t with
         | [] => false
         | _ :: t' => likeMatch (c :: p') t')
    else
      match t with
      | [] => false
      | d :: t' => (decide (c = uscC) || decide (c.toLower = d.toLower)) && likeMatch p' t'
termination_by p.length + t.length
decreasing_by
  all_goals simp
  all_goals omega

mutual

/-- State of `s.split(/\s+/)` while reading a (possibly empty) non-space run;
`cur` is the reversed current token. -/
def splitWsGo (s : Str) (cur : Str) : List Str :=
  match s with
  | [] => [cur.reverse]
  | c :: rest =>
    if c.isWhitespace then cur.reverse :: splitWsSkip rest
    else splitWsGo rest (c :: cur)
termination_by s.length

/-- State of `s.split(/\s+/)` while consuming a whitespace run. -/
def splitWsSkip (s : Str) : List Str :=
  match s with
  | [] => [[]]
  | c :: rest =>
    if c.isWhitespace then splitWsSkip rest
    else splitWsGo rest [c]
termination_by s.length

end

/-- JS `s.split(/\s+/)`: maximal whitespace runs separate the pieces; a leading
or trailing run contributes a leading/trailing empty piece, and the result is
never empty. -/
def splitWs (s : Str) : List Str := splitWsGo s []

/-- An open key→value metadata map with already-stringified values, the shape
`calculateMetadataSimilarity` iterates over with `Object.entries`. -/
abbrev Meta := List (Str × Str)

/-- A serialized TEXT column: either `JSON.stringify` output of a structured
value, or malformed text (on which `JSON.parse` throws). -/
inductive BlobOf (α : Type) : Type
  | json (a : α)
  | bad (s : Str)
deriving DecidableEq, Repr

/-- `JSON.parse` on a serialized column: recovers the structured value, or
`none` for the thrown `SyntaxError`. -/
def BlobOf.parse {α : Type} : BlobOf α → Option α
  | .json a => some a
  | .bad _ => none

/-- `'success' | 'failure' | 'partial'` (the last constructor is renamed
because `partial` is a Lean keyword). -/
inductive Outcome : Type
  | success
  | failure
  | partialRes
deriving DecidableEq, Repr

/-- A row of the `patterns` table as created by `PatternStorage`
(`id, pattern, context, timestamp, metadata, confidence`). -/
structure PatternRow : Type where
  id : Nat
  pattern : Str
  context : Str
  timestamp : Nat
  metadata : Option (BlobOf Meta)
  confidence : ℚ
deriving DecidableEq, Repr

/-- A row of the `pattern_usage` table. -/
structure UsageRow : Type where
  id : Nat
  patternId : Nat
  timestamp : Nat
  outcome : Outcome
  feedback : Option Str
  adjustments : Option (BlobOf (List Str))
deriving DecidableEq, Repr

/-- A row of the `learning_patterns` table. -/
structure LearningRow : Type where
  id : Nat
  patternId : Nat
  projectFingerprint : Str
  executionData : Str
  category : Str
deriving DecidableEq, Repr

/-- The persistent store behind `PatternStorage`/`LearningStorage`
(`patterns`, `pattern_usage` and `learning_patterns` tables; rows kept in
insertion order, `INTEGER PRIMARY KEY` counters starting at 1). -/
structure DB : Type where
  patterns : List PatternRow := []
  usage : List UsageRow := []
  learning : List LearningRow := []
  nextPatternId : Nat := 1
  nextUsageId : Nat := 1
  nextLearningId : Nat := 1
deriving DecidableEq, Repr

/-- `OperationPattern` (BasePattern.ts): `id?`, `pattern`, `context`,
`timestamp`, `metadata`, `confidence` — note `confidence` is a required field
of the type. -/
structure OperationPattern : Type where
  id : Option Nat := none
  pattern : Str
  context : Str
  timestamp : Nat
  metadata : Meta
  confidence : ℚ
deriving DecidableEq, Repr

/-- `ConfidenceUpdateOptions`: all fields optional, defaults applied inside
`updateConfidence`.  `forkThreshold` is commented "When to fork pattern
(default 0.3)" in the source. -/
structure ConfidenceUpdateOptions : Type where
  successIncrease : Option ℚ := none
  failureDecrease : Option ℚ := none
  minConfidence : Option ℚ := none
  maxConfidence : Option ℚ := none
  forkThreshold : Option ℚ := none
deriving DecidableEq, Repr

/-- `successIncrease` with its default 0.1 applied. -/
def ConfidenceUpdateOptions.si (o : ConfidenceUpdateOptions) : ℚ :=
  o.successIncrease.getD (1/10)

/-- `failureDecrease` with its default 0.2 applied. -/
def ConfidenceUpdateOptions.fd (o : ConfidenceUpdateOptions) : ℚ :=
  o.failureDecrease.getD (1/5)

/-- `minConfidence` with its default 0.0 applied. -/
def ConfidenceUpdateOptions.lo (o : ConfidenceUpdateOptions) : ℚ :=
  o.minConfidence.getD 0

/-- `maxConfidence` with its default 1.0 applied. -/
def ConfidenceUpdateOptions.hi (o : ConfidenceUpdateOptions) : ℚ :=
  o.maxConfidence.getD 1

/-- `PatternUsage` as passed to `recordUsage`. -/
structure PatternUsage : Type where
  patternId : Nat
  timestamp : Nat
  outcome : Outcome
  feedback : Option Str := none
  adjustments : Option (List Str) := none
deriving DecidableEq, Repr

/-- Insert into a timestamp-descending list (stable: an earlier row stays
ahead of later rows with an equal timestamp). -/
def insertTsDesc {α : Type} (ts : α → Nat) (a : α) : List α → List α
  | [] => [a]
  | b :: l => if ts b ≤ ts a then a :: b :: l else b :: insertTsDesc ts a l

/-- `ORDER BY timestamp DESC` over a table. -/
def sortTsDesc {α : Type} (ts : α → Nat) : List α → List α
  | [] => []
  | a :: l => insertTsDesc ts a (sortTsDesc ts l)

namespace PatternStorage

/-- `PatternStorage.store`: `INSERT INTO patterns (pattern, context, timestamp,
metadata, confidence) VALUES (?,?,?,?,?)` with the metadata serialized by
`JSON.stringify`; returns the new rowid.  The text is inserted exactly as
given and the confidence is the one carried on the input. -/
def store (db : DB) (p : OperationPattern) : DB × Nat :=
  let row : PatternRow :=
    { id := db.nextPatternId, pattern := p.pattern, context := p.context,
      timestamp := p.timestamp, metadata := some (BlobOf.json p.metadata),
      confidence := p.confidence }
  ({ db with patterns := db.patterns ++ [row],
             nextPatternId := db.nextPatternId + 1 },
   db.nextPatternId)

/-- The SQL `CASE WHEN ? THEN MIN(confidence + ?, ?) ELSE MAX(confidence - ?, ?) END`
of `updateConfidence`, with the JS-side defaults destructured in. -/
def newConfidence (c : ℚ) (success : Bool) (o : ConfidenceUpdateOptions) : ℚ :=
  if success then min (c + o.si) o.hi else max (c - o.fd) o.lo

/-- `PatternStorage.updateConfidence`: updates the row `WHERE id = ?` and
returns the `RETURNING confidence` value; `none` when the id does not exist
(the source then crashes reading `result.confidence`, the spec's
`NotFoundError`).  `forkThreshold` is accepted but never used. -/
def updateConfidence (db : DB) (patternId : Nat) (success : Bool)
    (o : ConfidenceUpdateOptions) : Option (DB × ℚ) :=
  match db.patterns.find? (fun r => r.id == patternId) with
  | none => none
  | some r =>
    some ({ db with patterns := db.patterns.map (fun x =>
              if x.id == patternId
              then { x with confidence := newConfidence x.confidence success o }
              else x) },
          newConfidence r.confidence success o)

/-- `PatternStorage.recordUsage`: a single `INSERT INTO pattern_usage ...`;
`adjustments` serialized when present, nothing else touched. -/
def recordUsage (db : DB) (u : PatternUsage) : DB :=
  let row : UsageRow :=
    { id := db.nextUsageId, patternId := u.patternId, timestamp := u.timestamp,
      outcome := u.outcome, feedback := u.feedback,
      adjustments := u.adjustments.map BlobOf.json }
  { db with usage := db.usage ++ [row], nextUsageId := db.nextUsageId + 1 }

/-- The per-row mapping inside `find`: `metadata: row.metadata ?
JSON.parse(row.metadata) : {}` — the `JSON.parse` is not wrapped in
`try`/`catch`, so a malformed blob propagates as an error. -/
def rowToPatternE (r : PatternRow) : Except Unit OperationPattern :=
  match r.metadata with
  | none =>
    .ok { id := some r.id, pattern := r.pattern, context := r.context,
          timestamp := r.timestamp, metadata := [], confidence := r.confidence }
  | some b =>
    match b.parse with
    | some m =>
      .ok { id := some r.id, pattern := r.pattern, context := r.context,
            timestamp := r.timestamp, metadata := m, confidence := r.confidence }
    | none => .error ()

/-- `rows.map(...)` where the body can throw: left-to-right, first failure
aborts the whole call. -/
def mapRowsE : List PatternRow → Except Unit (List OperationPattern)
  | [] => .ok []
  | r :: t =>
    match rowToPatternE r with
    | .error e => .error e
    | .ok p =>
      match mapRowsE t with
      | .error e => .error e
      | .ok ps => .ok (p :: ps)

/-- `PatternStorage.find`: `SELECT * FROM patterns WHERE pattern LIKE ?`
with the bound value `'%' + pattern + '%'`, `ORDER BY timestamp DESC`, each
row converted by `rowToPatternE`. -/
def find (db : DB) (pattern : Str) : Except Unit (List OperationPattern) :=
  mapRowsE (sortTsDesc PatternRow.timestamp
    (db.patterns.filter (fun r => likeMatch (pctC :: pattern ++ [pctC]) r.pattern)))

end PatternStorage

namespace LocalStore

/-- `LocalStore.findBestMatchForContext`: first an exact context match, then a
partial (substring either way) match against a truthy (non-empty) context. -/
def findBestMatchForContext (patterns : List OperationPattern) (context : Str) :
    Option OperationPattern :=
  match patterns.find? (fun p => p.context == context) with
  | some p => some p
  | none =>
    patterns.find? (fun p =>
      !p.context.isEmpty && (isSubstr context p.context || isSubstr p.context context))

/-- `LocalStore.findSimilarPattern` (PatternStorage-backed variant):
`find(pattern)`, `null` on no rows, then either the context best-match or
`patterns[0]`; a falsy (empty) context hint behaves like no hint. -/
def findSimilarPattern (db : DB) (pattern : Str) (context : Option Str) :
    Except Unit (Option OperationPattern) :=
  match PatternStorage.find db pattern with
  | .error e => .error e
  | .ok patterns =>
    if patterns.isEmpty then .ok none
    else
      match context with
      | some c =>
        if c.isEmpty then .ok patterns.head?
        else .ok (findBestMatchForContext patterns c)
      | none => .ok patterns.head?

end LocalStore

/-! JSON.stringify for the structured values `LearningStorage.store` writes
into plain TEXT columns (`patterns.context` and
`learning_patterns.execution_data`).  Keys render in insertion order, as in JS. -/

/-- `'"'`. -/
def quoC : Char := Char.ofNat 34

/-- `'{'`. -/
def lbrC : Char := Char.ofNat 123

/-- `'}'`. -/
def rbrC : Char := Char.ofNat 125

/-- JSON string escaping of one character (quote and backslash; the inputs at
hand contain no control characters). -/
def escJsonChar (c : Char) : Str :=
  if c = quoC ∨ c = '\\' then ['\\', c] else [c]

/-- `JSON.stringify` of a string. -/
def jsonOfStr (s : Str) : Str := quoC :: (s.map escJsonChar).flatten ++ [quoC]

/-- `JSON.stringify` of an array of strings. -/
def jsonOfStrList (l : List Str) : Str :=
  '[' :: List.intercalate [','] (l.map jsonOfStr) ++ [']']

/-- One `"key":value` field. -/
def jsonField (k : Str) (v : Str) : Str := jsonOfStr k ++ [':'] ++ v

/-- An object out of rendered fields. -/
def jsonObj (fields : List Str) : Str :=
  lbrC :: List.intercalate [','] fields ++ [rbrC]

/-- `JSON.stringify` of a flat string map. -/
def jsonOfMeta (m : Meta) : Str :=
  jsonObj (m.map (fun kv => jsonField kv.1 (jsonOfStr kv.2)))

/-- `JSON.stringify` of a number (naturals suffice here). -/
def jsonOfNat (n : Nat) : Str := (Nat.repr n).data

/-- The `projectContext` carried by a `LearningPattern`. -/
structure ProjectContextInfo : Type where
  fingerprint : Str
  fileTypes : List Str
  dependencies : List Str
deriving DecidableEq, Repr

/-- One execution operation `{type, params, timestamp}`. -/
structure Operation : Type where
  type : Str
  params : Meta
  timestamp : Nat
deriving DecidableEq, Repr

/-- `execution: {operations, outcome}`. -/
structure Execution : Type where
  operations : List Operation
  outcome : Outcome
deriving DecidableEq, Repr

/-- The source's outcome literals. -/
def outcomeText : Outcome → Str
  | .success => "success".data
  | .failure => "failure".data
  | .partialRes => "partial".data

/-- `JSON.stringify(pattern.projectContext)`. -/
def serializeProjectContext (pc : ProjectContextInfo) : Str :=
  jsonObj [jsonField "fingerprint".data (jsonOfStr pc.fingerprint),
           jsonField "fileTypes".data (jsonOfStrList pc.fileTypes),
           jsonField "dependencies".data (jsonOfStrList pc.dependencies)]

/-- `JSON.stringify` of one operation. -/
def serializeOperation (op : Operation) : Str :=
  jsonObj [jsonField "type".data (jsonOfStr op.type),
           jsonField "params".data (jsonOfMeta op.params),
           jsonField "timestamp".data (jsonOfNat op.timestamp)]

/-- `JSON.stringify(pattern.execution)`. -/
def serializeExecution (e : Execution) : Str :=
  jsonObj [jsonField "operations".data
             ('[' :: List.intercalate [','] (e.operations.map serializeOperation) ++ [']']),
           jsonField "outcome".data (jsonOfStr (outcomeText e.outcome))]

/-- `LearningPattern` (BasePattern.ts): a pattern with `projectContext`,
`execution` and `category`; `confidence` is a required field of the type. -/
structure LearningPattern : Type where
  pattern : Str
  context : Str
  timestamp : Nat
  metadata : Meta
  confidence : ℚ
  projectContext : ProjectContextInfo
  execution : Execution
  category : Str
deriving DecidableEq, Repr

namespace LearningStorage

/-- `LearningStorage.store`: first stores the base pattern through
`PatternStorage.store` with `context: JSON.stringify(pattern.projectContext)`
and `confidence: 1.0` (the input's own confidence is not used), then inserts
the learning-specific `learning_patterns` row; returns the base pattern id. -/
def store (db : DB) (p : LearningPattern) : DB × Nat :=
  let res := PatternStorage.store db
    { pattern := p.pattern, context := serializeProjectContext p.projectContext,
      timestamp := p.timestamp, metadata := p.metadata, confidence := 1 }
  let db1 := res.1
  let patternId := res.2
  let lrow : LearningRow :=
    { id := db1.nextLearningId, patternId := patternId,
      projectFingerprint := p.projectContext.fingerprint,
      executionData := serializeExecution p.execution, category := p.category }
  ({ db1 with learning := db1.learning ++ [lrow],
              nextLearningId := db1.nextLearningId + 1 },
   patternId)

end LearningStorage

/-! The command-key `LocalStore` variant: its `patterns` table carries a
`command` column and no confidence. -/

/-- A row of the command-key variant's `patterns` table. -/
structure V2Row : Type where
  id : Nat
  pattern : Str
  context : Str
  command : Str
  timestamp : Nat
  metadata : Option (BlobOf Meta)
deriving DecidableEq, Repr

/-- The command-key variant's store. -/
structure V2DB : Type where
  rows : List V2Row := []
  nextId : Nat := 1
deriving DecidableEq, Repr

/-- The command-key variant's `OperationPattern`: no confidence field,
optional metadata. -/
structure V2Pattern : Type where
  id : Option Nat := none
  pattern : Str
  context : Str
  timestamp : Nat
  metadata : Option Meta := none
deriving DecidableEq, Repr

namespace LocalStoreV2

/-- `storePattern`: command = lowercased first space-token of the untrimmed
text, text trimmed on insert, metadata serialized when present. -/
def storePattern (db : V2DB) (p : V2Pattern) : V2DB × Nat :=
  let command := lowerStr (firstTok p.pattern)
  let row : V2Row :=
    { id := db.nextId, pattern := trimStr p.pattern, context := p.context,
      command := command, timestamp := p.timestamp,
      metadata := p.metadata.map BlobOf.json }
  ({ rows := db.rows ++ [row], nextId := db.nextId + 1 }, db.nextId)

/-- `calculatePatternSimilarity`: word overlap over `split(/\s+/)` of the
lowercased texts, +0.5 for an equal first word, +0.5 for equal word counts,
divided by the larger word count. -/
def calculatePatternSimilarity (pattern1 pattern2 : Str) : ℚ :=
  let words1 := splitWs (lowerStr pattern1)
  let words2 := splitWs (lowerStr pattern2)
  let maxScore : ℚ := (max words1.length words2.length : Nat)
  let base : ℚ := ((words1.filter (fun w => words2.contains w)).length : Nat)
  let withFirst := base + (if words1.headI = words2.headI then (1 : ℚ)/2 else 0)
  let withLen := withFirst + (if words1.length = words2.length then (1 : ℚ)/2 else 0)
  withLen / maxScore

/-- `calculateMetadataSimilarity`: +0.4 per value occurring in the lowercased
query, +0.2 per key name occurring, +0.6 for the `styling`/`security` keyword
groups; clamped to 1. -/
def calculateMetadataSimilarity (pattern : Str) (metadata : Meta) : ℚ :=
  let patternLower := lowerStr pattern
  let score := metadata.foldl (fun acc kv =>
    let acc := acc + (if isSubstr (lowerStr kv.2) patternLower then (2 : ℚ)/5 else 0)
    let acc := acc + (if isSubstr (lowerStr kv.1) patternLower then (1 : ℚ)/5 else 0)
    let acc := acc +
      (if kv.1 = "styling".data ∧
          (isSubstr "style".data patternLower ∨ isSubstr "styled".data patternLower ∨
           isSubstr "css".data patternLower)
       then (3 : ℚ)/5 else 0)
    acc +
      (if kv.1 = "security".data ∧
          (isSubstr "secure".data patternLower ∨ isSubstr "auth".data patternLower ∨
           isSubstr "authentication".data patternLower)
       then (3 : ℚ)/5 else 0)) 0
  min score 1

/-- `JSON.parse(row.metadata || '{}')` inside `findBestMatch`'s `try` block:
a NULL column falls back to the empty object, a malformed blob to `none`
(the caught exception, `continue`). -/
def metaOf (r : V2Row) : Option Meta := (r.metadata.getD (BlobOf.json [])).parse

/-- `findBestMatch`: first candidate whose metadata score exceeds 0.5 (rows
with unparsable metadata skipped), else the head candidate iff its word
similarity is ≥ 0.3. -/
def findBestMatch (pattern : Str) (rows : List V2Row) : Option V2Row :=
  match rows with
  | [] => none
  | r0 :: _ =>
    match rows.find? (fun r =>
        match metaOf r with
        | some m => decide (calculateMetadataSimilarity pattern m > 1/2)
        | none => false) with
    | some r => some r
    | none =>
      if calculatePatternSimilarity pattern r0.pattern ≥ 3/10 then some r0 else none

/-- `convertRowToPattern`: metadata parsed back when present, a parse failure
caught and degraded to no metadata.  (The source's extra wrap of non-object
JSON values is unreachable here because every well-formed blob is a map.) -/
def convertRowToPattern (r : V2Row) : V2Pattern :=
  { id := some r.id, pattern := r.pattern, context := r.context,
    timestamp := r.timestamp,
    metadata := match r.metadata with
                | none => none
                | some b => b.parse }

/-- The no-context query of `findSimilarPattern`: `WHERE command = ? ORDER BY
timestamp DESC LIMIT 10`, then `findBestMatch`. -/
def findSimilarNoCtx (db : V2DB) (pattern : Str) (command : Str) : Option V2Pattern :=
  let similarMatches :=
    (sortTsDesc V2Row.timestamp (db.rows.filter (fun r => r.command == command))).take 10
  if similarMatches.isEmpty then none
  else
    match findBestMatch pattern similarMatches with
    | some r => some (convertRowToPattern r)
    | none => none

/-- `findSimilarPattern` (command-key variant): command = lowercased first
space-token of the query; with a truthy context hint, candidates come from
`WHERE command = ? AND context LIKE '%ctx%' ... LIMIT 5`, else from the
plain command query. -/
def findSimilarPattern (db : V2DB) (pattern : Str) (context : Option Str) :
    Option V2Pattern :=
  let command := lowerStr (firstTok pattern)
  match context with
  | some c =>
    if c.isEmpty then findSimilarNoCtx db pattern command
    else
      let contextMatches :=
        (sortTsDesc V2Row.timestamp (db.rows.filter (fun r =>
          r.command == command && likeMatch (pctC :: c ++ [pctC]) r.context))).take 5
      if contextMatches.isEmpty then none
      else
        match findBestMatch pattern contextMatches with
        | some r => some (convertRowToPattern r)
        | none => none
  | none => findSimilarNoCtx db pattern command

end LocalStoreV2

/-! Message chunker.  `JSON.parse`'s success on a tool payload is an oracle
parameter `jsonOk` (the chunker only ever tests parseability and keeps the
raw text). -/

/-- The `say` tag of a transcript message (the values the chunker branches on). -/
inductive Say : Type
  | text
  | tool
  | error
  | other
deriving DecidableEq, Repr

/-- A transcript message. -/
structure ClineMessage : Type where
  ts : Nat
  say : Say
  text : Option Str := none
deriving DecidableEq, Repr

/-- Checkpoint types. -/
inductive CpType : Type
  | start
  | tool_usage
  | error
  | completion
  | feedback
deriving DecidableEq, Repr

/-- A checkpoint within a chunk. -/
structure Checkpoint : Type where
  ts : Nat
  type : CpType
  message : Str
  success : Option Bool := none
deriving DecidableEq, Repr

/-- A task chunk (the optional `intent` field is never set by the chunker and
is omitted). -/
structure TaskChunk : Type where
  startTs : Nat
  endTs : Nat
  messages : List ClineMessage
  checkpoints : List Checkpoint
deriving DecidableEq, Repr

namespace MessageChunker

/-- `"let's "` (built around the apostrophe character). -/
def letsStr : Str := "let".data ++ [apoC] ++ "s ".data

/-- The `TASK_START_PATTERNS`: `/^(create|implement|add|update|fix|refactor)/i`,
`/^can you help/i`, `/^let's (create|implement|fix)/i`. -/
def taskStartMatch (s : Str) : Bool :=
  let l := lowerStr s
  "create".data.isPrefixOf l || "implement".data.isPrefixOf l ||
  "add".data.isPrefixOf l || "update".data.isPrefixOf l ||
  "fix".data.isPrefixOf l || "refactor".data.isPrefixOf l ||
  "can you help".data.isPrefixOf l ||
  (letsStr ++ "create".data).isPrefixOf l ||
  (letsStr ++ "implement".data).isPrefixOf l ||
  (letsStr ++ "fix".data).isPrefixOf l

/-- The `TASK_END_PATTERNS`: `/tests? pass(ed|ing)?/i`,
`/successfully (created|implemented|fixed)/i`, `/completed successfully/i`,
`/failed with error/i` (the optional suffixes do not constrain matching). -/
def taskEndMatch (s : Str) : Bool :=
  let l := lowerStr s
  isSubstr "test pass".data l || isSubstr "tests pass".data l ||
  isSubstr "successfully created".data l ||
  isSubstr "successfully implemented".data l ||
  isSubstr "successfully fixed".data l ||
  isSubstr "completed successfully".data l ||
  isSubstr "failed with error".data l

/-- `isTaskStart`: only plain-text messages can start a chunk. -/
def isTaskStart (m : ClineMessage) : Bool :=
  match m.say with
  | .text => taskStartMatch (m.text.getD [])
  | _ => false

/-- `isTaskEnd`: only plain-text messages can end a chunk. -/
def isTaskEnd (m : ClineMessage) : Bool :=
  match m.say with
  | .text => taskEndMatch (m.text.getD [])
  | _ => false

/-- `initializeChunk`: a fresh chunk seeded with a `start` checkpoint. -/
def initializeChunk (m : ClineMessage) : TaskChunk :=
  { startTs := m.ts, endTs := m.ts, messages := [m],
    checkpoints := [{ ts := m.ts, type := .start, message := m.text.getD [] }] }

/-- Flip the success flag of the first `tool_usage` checkpoint in the list. -/
def setFirstToolUsageFailed : List Checkpoint → List Checkpoint
  | [] => []
  | c :: t =>
    if c.type = .tool_usage then { c with success := some false } :: t
    else c :: setFirstToolUsageFailed t

/-- `lastToolUsage.success = false`: flip the most recent `tool_usage`
checkpoint. -/
def setLastToolUsageFailed (l : List Checkpoint) : List Checkpoint :=
  (setFirstToolUsageFailed l.reverse).reverse

/-- `processMessage`: append the message, advance `endTs`, and record a
checkpoint according to the `say` tag.  A tool message records a `tool_usage`
checkpoint only when its payload parses as JSON; an error message records an
`error` checkpoint and retro-fails the last `tool_usage`; a text message
matching an end pattern records a `completion` checkpoint whose success is the
absence of "fail" in the lowercased text. -/
def processMessage (jsonOk : Str → Bool) (m : ClineMessage) (chunk : TaskChunk) :
    TaskChunk :=
  let chunk := { chunk with messages := chunk.messages ++ [m], endTs := m.ts }
  match m.say with
  | .tool =>
    if jsonOk (m.text.getD []) then
      { chunk with checkpoints := chunk.checkpoints ++
          [{ ts := m.ts, type := .tool_usage, message := m.text.getD [],
             success := some true }] }
    else chunk
  | .error =>
    { chunk with checkpoints := setLastToolUsageFailed (chunk.checkpoints ++
        [{ ts := m.ts, type := .error, message := m.text.getD [],
           success := some false }]) }
  | .text =>
    if taskEndMatch (m.text.getD []) then
      { chunk with checkpoints := chunk.checkpoints ++
          [{ ts := m.ts, type := .completion, message := m.text.getD [],
             success := some (!isSubstr "fail".data (lowerStr (m.text.getD []))) }] }
    else chunk
  | .other => chunk

/-- `finalizeChunk`: synthesize a success-less `completion` checkpoint when
none occurred naturally. -/
def finalizeChunk (chunk : TaskChunk) : TaskChunk :=
  if chunk.checkpoints.any (fun cp => decide (cp.type = .completion)) then chunk
  else
    { chunk with checkpoints := chunk.checkpoints ++
        [{ ts := chunk.endTs, type := .completion,
           message := "Task ended without explicit completion".data,
           success := none }] }

/-- The chunking fold state: emitted chunks plus at most one open chunk. -/
structure ChunkState : Type where
  chunks : List TaskChunk
  current : Option TaskChunk
deriving Repr

/-- One step of `chunkMessages`' loop: skip falsy-text messages, open a new
chunk on a start trigger (finalizing any open one), otherwise feed the open
chunk and close it on an end trigger. -/
def chunkStep (jsonOk : Str → Bool) (st : ChunkState) (m : ClineMessage) :
    ChunkState :=
  if (m.text.getD []).isEmpty then st
  else if isTaskStart m then
    { chunks := st.chunks ++
        (match st.current with
         | some c => [finalizeChunk c]
         | none => []),
      current := some (initializeChunk m) }
  else
    match st.current with
    | some c =>
      let c' := processMessage jsonOk m c
      if isTaskEnd m then { chunks := st.chunks ++ [finalizeChunk c'], current := none }
      else { st with current := some c' }
    | none => st

/-- `validateAndCleanChunks`' filter: at least 2 checkpoints, at least 2
messages, duration at least 100. -/
def validChunk (c : TaskChunk) : Bool :=
  decide (2 ≤ c.checkpoints.length) && decide (2 ≤ c.messages.length) &&
  decide (100 ≤ c.endTs - c.startTs)

/-- `chunkMessages`: fold the transcript through `chunkStep`, finalize a
trailing open chunk, and keep only valid chunks. -/
def chunkMessages (jsonOk : Str → Bool) (messages : List ClineMessage) :
    List TaskChunk :=
  let st := messages.foldl (chunkStep jsonOk) ⟨[], none⟩
  let all := st.chunks ++
    (match st.current with
     | some c => [finalizeChunk c]
     | none => [])
  all.filter validChunk

end MessageChunker

namespace LogPatternExtractor

/-- `determineOutcome`: success when the first `completion` checkpoint is
explicitly successful, else failure when any `error` checkpoint exists, else
partial. -/
def determineOutcome (chunk : TaskChunk) : Outcome :=
  let completionOk :=
    match chunk.checkpoints.find? (fun cp => decide (cp.type = .completion)) with
    | some cp => decide (cp.success = some true)
    | none => false
  if completionOk then .success
  else if chunk.checkpoints.any (fun cp => decide (cp.type = .error)) then .failure
  else .partialRes

end LogPatternExtractor

/-! Helper lemmas. -/

theorem likeMatch_pct_single : ∀ t : Str, likeMatch [pctC] t = true := by
  intro t
  induction t with
  | nil => simp [likeMatch]
  | cons c t ih => simp [likeMatch] at ih ⊢; simp [ih]

theorem likeMatch_pct_cons (p t : Str) (h : likeMatch p t = true) :
    likeMatch (pctC :: p) t = true := by
  cases t with
  | nil => simp [likeMatch, h]
  | cons d t' => simp [likeMatch, h]

theorem likeMatch_nil_unfold (t : Str) : likeMatch [] t = t.isEmpty := by
  cases t <;> simp [likeMatch]

theorem likeMatch_pct_unfold (p : Str) :
    ∀ t, likeMatch (pctC :: p) t =
      (likeMatch p t ||
        (match t with
         | [] => false
         | _ :: t' => likeMatch (pctC :: p) t')) := by
  intro t
  cases t <;> simp [likeMatch]

theorem likeMatch_lit_unfold (c : Char) (p : Str) (hc : ¬c = pctC) :
    ∀ t, likeMatch (c :: p) t =
      (match t with
       | [] => false
       | d :: t' => (decide (c = uscC) || decide (c.toLower = d.toLower)) && likeMatch p t') := by
  intro t
  cases t <;> simp [likeMatch, hc]

theorem likeMatch_append_pct_aux :
    ∀ n p t, p.length + t.length ≤ n → likeMatch p t = true →
      likeMatch (p ++ [pctC]) t = true := by
  intro n
  induction n with
  | zero =>
    intro p t hn h
    have hp : p = [] := by cases p <;> simp_all
    have ht : t = [] := by cases t <;> simp_all
    subst hp; subst ht
    simp [likeMatch]
  | succ n ih =>
    intro p t hn h
    cases p with
    | nil =>
      have ht : t = [] := by
        cases t with
        | nil => rfl
        | cons d t' => simp [likeMatch] at h
      subst ht
      simp [likeMatch]
    | cons c p' =>
      by_cases hc : c = pctC
      · subst hc
        rw [likeMatch_pct_unfold] at h
        rcases Bool.or_eq_true_iff.mp h with h1 | h2
        · have := ih p' t (by simp at hn; omega) h1
          exact likeMatch_pct_cons (p' ++ [pctC]) t this
        · cases t with
          | nil => simp at h2
          | cons d t' =>
            simp only at h2
            have := ih (pctC :: p') t' (by simp at hn ⊢; omega) h2
            rw [List.cons_append, likeMatch_pct_unfold]
            refine Bool.or_eq_true_iff.mpr (Or.inr ?_)
            simp only
            rw [← List.cons_append]
            exact this
      · cases t with
        | nil => rw [likeMatch_lit_unfold c p' hc] at h; simp at h
        | cons d t' =>
          rw [likeMatch_lit_unfold c p' hc] at h
          simp only at h
          rcases Bool.and_eq_true_iff.mp h with ⟨h1, h2⟩
          have := ih p' t' (by simp at hn; omega) h2
          rw [List.cons_append, likeMatch_lit_unfold c (p' ++ [pctC]) hc]
          simp only
          exact Bool.and_eq_true_iff.mpr ⟨h1, this⟩

theorem likeMatch_append_pct (p t : Str) (h : likeMatch p t = true) :
    likeMatch (p ++ [pctC]) t = true :=
  likeMatch_append_pct_aux (p.length + t.length) p t le_rfl h

theorem likeMatch_self : ∀ s : Str, likeMatch s s = true := by
  intro s
  induction s with
  | nil => simp [likeMatch]
  | cons c s ih =>
    by_cases hc : c = pctC
    · subst hc
      rw [likeMatch_pct_unfold]
      refine Bool.or_eq_true_iff.mpr (Or.inr ?_)
      simpa using likeMatch_pct_cons s s ih
    · rw [likeMatch_lit_unfold c s hc]
      simp [ih]

/-- `'%' + s + '%'` LIKE-matches `s` itself. -/
theorem likeMatch_wrap_self (s : Str) : likeMatch (pctC :: s ++ [pctC]) s = true :=
  likeMatch_pct_cons _ _ (likeMatch_append_pct _ _ (likeMatch_self s))

/-- `'%%'` LIKE-matches everything. -/
theorem likeMatch_pct_pct (t : Str) : likeMatch [pctC, pctC] t = true :=
  likeMatch_pct_cons [pctC] t (likeMatch_pct_single t)

theorem mem_insertTsDesc {α : Type} (ts : α → Nat) (a b : α) :
    ∀ l : List α, (a ∈ insertTsDesc ts b l ↔ a = b ∨ a ∈ l) := by
  intro l
  induction l with
  | nil => simp [insertTsDesc]
  | cons x l ih =>
    rw [insertTsDesc]
    split
    · simp
    · simp [ih]; tauto

theorem mem_sortTsDesc {α : Type} (ts : α → Nat) (a : α) :
    ∀ l : List α, (a ∈ sortTsDesc ts l ↔ a ∈ l) := by
  intro l
  induction l with
  | nil => simp [sortTsDesc]
  | cons x l ih => rw [sortTsDesc]; simp [mem_insertTsDesc, ih]

theorem length_insertTsDesc {α : Type} (ts : α → Nat) (b : α) :
    ∀ l : List α, (insertTsDesc ts b l).length = l.length + 1 := by
  intro l
  induction l with
  | nil => simp [insertTsDesc]
  | cons x l ih => rw [insertTsDesc]; split <;> simp [ih]

theorem length_sortTsDesc {α : Type} (ts : α → Nat) :
    ∀ l : List α, (sortTsDesc ts l).length = l.length := by
  intro l
  induction l with
  | nil => rfl
  | cons x l ih => rw [sortTsDesc]; rw [length_insertTsDesc, ih]; simp

/-- A Boolean "did not throw" for modelled fallible calls. -/
def exceptOk {α : Type} : Except Unit α → Bool
  | .ok _ => true
  | .error _ => false

theorem mapRowsE_ok_iff (l : List PatternRow) :
    exceptOk (PatternStorage.mapRowsE l) = true ↔
      ∀ r ∈ l, exceptOk (PatternStorage.rowToPatternE r) = true := by
  induction l with
  | nil => simp [PatternStorage.mapRowsE, exceptOk]
  | cons r t ih =>
    rw [PatternStorage.mapRowsE]
    cases hr : PatternStorage.rowToPatternE r with
    | error e => simp [exceptOk, hr]
    | ok p =>
      cases hm : PatternStorage.mapRowsE t with
      | error e => simp [exceptOk, hr, hm] at ih ⊢; exact ih
      | ok ps => simp [exceptOk, hr, hm] at ih ⊢; exact ih

theorem mapRowsE_ok_of (l : List PatternRow)
    (h : ∀ r ∈ l, exceptOk (PatternStorage.rowToPatternE r) = true) :
    ∃ l', PatternStorage.mapRowsE l = .ok l' ∧ l'.length = l.length ∧
      ∀ r ∈ l, ∀ q, PatternStorage.rowToPatternE r = .ok q → q ∈ l' := by
  induction l with
  | nil => exact ⟨[], rfl, rfl, by simp⟩
  | cons r t ih =>
    have hr := h r (by simp)
    cases hrow : PatternStorage.rowToPatternE r with
    | error e => rw [hrow] at hr; simp [exceptOk] at hr
    | ok p =>
      obtain ⟨l', hmap, hlen, hmem⟩ := ih (fun x hx => h x (by simp [hx]))
      refine ⟨p :: l', ?_, by simp [hlen], ?_⟩
      · rw [PatternStorage.mapRowsE, hrow, hmap]
      · intro x hx q hq
        rcases List.mem_cons.mp hx with hx | hx
        · rw [hx, hrow] at hq
          cases hq
          exact List.mem_cons_self _ _
        · exact List.mem_cons_of_mem _ (hmem x hx q hq)

theorem rowToPatternE_ok_of_not_bad (r : PatternRow)
    (h : ∀ s, r.metadata ≠ some (BlobOf.bad s)) :
    exceptOk (PatternStorage.rowToPatternE r) = true := by
  cases hm : r.metadata with
  | none => simp [PatternStorage.rowToPatternE, hm, exceptOk]
  | some b =>
    cases b with
    | json m => simp [PatternStorage.rowToPatternE, hm, BlobOf.parse, exceptOk]
    | bad s => exact absurd hm (h s)

theorem newConfidence_range (c : ℚ) (success : Bool) (o : ConfidenceUpdateOptions)
    (hrange : o.lo ≤ o.hi) (hsi : 0 ≤ o.si) (hfd : 0 ≤ o.fd)
    (hc1 : o.lo ≤ c) (hc2 : c ≤ o.hi) :
    o.lo ≤ PatternStorage.newConfidence c success o ∧
      PatternStorage.newConfidence c success o ≤ o.hi := by
  cases success with
  | true =>
    have h : PatternStorage.newConfidence c true o = min (c + o.si) o.hi := rfl
    rw [h]
    exact ⟨le_min (hc1.trans (le_add_of_nonneg_right hsi)) hrange, min_le_right _ _⟩
  | false =>
    have h : PatternStorage.newConfidence c false o = max (c - o.fd) o.lo := rfl
    rw [h]
    exact ⟨le_max_right _ _, max_le ((sub_le_self c hfd).trans hc2) hrange⟩

theorem scanl_newConfidence_range (o : ConfidenceUpdateOptions)
    (hrange : o.lo ≤ o.hi) (hsi : 0 ≤ o.si) (hfd : 0 ≤ o.fd) :
    ∀ (c0 : ℚ) (updates : List Bool), o.lo ≤ c0 → c0 ≤ o.hi →
      ∀ c ∈ List.scanl (fun c u => PatternStorage.newConfidence c u o) c0 updates,
        o.lo ≤ c ∧ c ≤ o.hi := by
  intro c0 updates
  induction updates generalizing c0 with
  | nil =>
    intro h1 h2 c hc
    simp [List.scanl] at hc
    subst hc
    exact ⟨h1, h2⟩
  | cons u us ih =>
    intro h1 h2 c hc
    simp only [List.scanl] at hc
    rcases List.mem_cons.mp hc with hc | hc
    · subst hc; exact ⟨h1, h2⟩
    · have hnext := newConfidence_range c0 u o hrange hsi hfd h1 h2
      exact ih _ hnext.1 hnext.2 c hc

/-! Claim theorems. -/

/-- C1 (amended): when the per-update bounds satisfy `minConfidence ≤
maxConfidence`, the deltas are nonnegative and the stored confidence of the
target id is within `[minConfidence, maxConfidence]` before the call, then
`updateConfidence` returns a confidence within the bounds, leaves every row of
that id within the bounds, and consequently any sequence of success/failure
updates under those options starting in range keeps every intermediate and
final confidence in range. -/
theorem updateConfidence_clamps_in_range (db db' : DB) (patternId : Nat)
    (success : Bool) (o : ConfidenceUpdateOptions) (c' : ℚ)
    (hrange : o.lo ≤ o.hi) (hsi : 0 ≤ o.si) (hfd : 0 ≤ o.fd)
    (hpre : ∀ r ∈ db.patterns, r.id = patternId →
      o.lo ≤ r.confidence ∧ r.confidence ≤ o.hi)
    (hcall : PatternStorage.updateConfidence db patternId success o = some (db', c')) :
    (o.lo ≤ c' ∧ c' ≤ o.hi) ∧
    (∀ r ∈ db'.patterns, r.id = patternId →
      o.lo ≤ r.confidence ∧ r.confidence ≤ o.hi) ∧
    (∀ (c0 : ℚ) (updates : List Bool), o.lo ≤ c0 → c0 ≤ o.hi →
      ∀ c ∈ List.scanl (fun c u => PatternStorage.newConfidence c u o) c0 updates,
        o.lo ≤ c ∧ c ≤ o.hi) := by
  rw [PatternStorage.updateConfidence] at hcall
  cases hfind : db.patterns.find? (fun r => r.id == patternId) with
  | none => rw [hfind] at hcall; simp at hcall
  | some r =>
    rw [hfind] at hcall
    simp only [Option.some.injEq, Prod.mk.injEq] at hcall
    obtain ⟨hdb', hc'⟩ := hcall
    have hrmem : r ∈ db.patterns := List.mem_of_find?_eq_some hfind
    have hrid : r.id = patternId := by simpa using List.find?_some hfind
    refine ⟨?_, ?_, scanl_newConfidence_range o hrange hsi hfd⟩
    · subst hc'
      obtain ⟨ha, hb⟩ := hpre r hrmem hrid
      exact newConfidence_range r.confidence success o hrange hsi hfd ha hb
    · intro x hx hxid
      rw [← hdb'] at hx
      simp only at hx
      obtain ⟨y, hy, hfy⟩ := List.mem_map.mp hx
      by_cases hyid : (y.id == patternId) = true
      · rw [if_pos hyid] at hfy
        subst hfy
        obtain ⟨ha, hb⟩ := hpre y hy (by simpa using hyid)
        exact newConfidence_range y.confidence success o hrange hsi hfd ha hb
      · rw [if_neg hyid] at hfy
        subst hfy
        exact absurd (by simpa using hxid) hyid

theorem updateConfidence_clamps_in_range_witness :
    ({} : ConfidenceUpdateOptions).lo ≤ (3/5 : ℚ) ∧
      (3/5 : ℚ) ≤ ({} : ConfidenceUpdateOptions).hi :=
  (updateConfidence_clamps_in_range
    { patterns := [{ id := 1, pattern := "run tests".data, context := "jest".data,
                     timestamp := 0, metadata := none, confidence := 1/2 }],
      nextPatternId := 2 }
    { patterns := [{ id := 1, pattern := "run tests".data, context := "jest".data,
                     timestamp := 0, metadata := none, confidence := 3/5 }],
      nextPatternId := 2 }
    1 true {} (3/5) (by with_unfolding_all decide) (by with_unfolding_all decide)
    (by with_unfolding_all decide) (by with_unfolding_all decide)
    (by with_unfolding_all decide)).1

/-- C1 counterexample: as literally stated the claim fails on the code.  With
the default options (whose bounds satisfy `0 ≤ 1`) a failure update of a
stored confidence of 5 yields 4.8 ∉ [0,1]; and starting in range at 0.5, a
success update whose options satisfy `minConfidence ≤ maxConfidence` but carry
`successIncrease = -1` yields -0.5 ∉ [0,1]. -/
theorem updateConfidence_range_counterexample :
    (∃ db', PatternStorage.updateConfidence
        (PatternStorage.store {} { pattern := "p".data, context := "c".data,
                                   timestamp := 0, metadata := [], confidence := 5 }).1
        1 false {} = some (db', 24/5) ∧ ¬((24/5 : ℚ) ≤ ({} : ConfidenceUpdateOptions).hi)) ∧
    (∃ db', PatternStorage.updateConfidence
        (PatternStorage.store {} { pattern := "p".data, context := "c".data,
                                   timestamp := 0, metadata := [], confidence := 1/2 }).1
        1 true { successIncrease := some (-1) } = some (db', -(1/2)) ∧
      ¬(({ successIncrease := some (-1) } : ConfidenceUpdateOptions).lo ≤ -(1/2))) := by
  constructor
  · exact ⟨{ patterns := [{ id := 1, pattern := "p".data, context := "c".data,
                            timestamp := 0, metadata := some (BlobOf.json []),
                            confidence := 24/5 }],
             nextPatternId := 2 },
           by with_unfolding_all decide, by with_unfolding_all decide⟩
  · exact ⟨{ patterns := [{ id := 1, pattern := "p".data, context := "c".data,
                            timestamp := 0, metadata := some (BlobOf.json []),
                            confidence := -(1/2) }],
             nextPatternId := 2 },
           by with_unfolding_all decide, by with_unfolding_all decide⟩

/-- C2: the code at the claimed fork scenario.  A failure update of a pattern
at confidence 0.35 with `failureDecrease = 0.2`, `forkThreshold = 0.3` drives
the confidence to 0.15 ≤ 0.3, but no new pattern row is created and no row is
reset to 0.5 — `updateConfidence` ignores `forkThreshold` entirely. -/
theorem updateConfidence_no_fork_at_threshold :
    ∃ db', PatternStorage.updateConfidence
        { patterns := [{ id := 1, pattern := "deploy".data, context := "ops".data,
                         timestamp := 0, metadata := none, confidence := 7/20 }],
          nextPatternId := 2 }
        1 false { failureDecrease := some (1/5), forkThreshold := some (3/10) }
      = some (db', 3/20) ∧
    (3/20 : ℚ) ≤ 3/10 ∧
    db'.patterns.length = 1 ∧
    (∀ r ∈ db'.patterns, r.confidence ≠ 1/2) := by
  refine ⟨{ patterns := [{ id := 1, pattern := "deploy".data, context := "ops".data,
                           timestamp := 0, metadata := none, confidence := 3/20 }],
            nextPatternId := 2 }, ?_, ?_, ?_, ?_⟩
  · with_unfolding_all decide
  · norm_num
  · rfl
  · with_unfolding_all decide

/-- C3 (amended): `recordUsage` appends exactly one `pattern_usage` row built
from the usage record and leaves the `patterns` (in particular every stored
confidence) and `learning_patterns` tables untouched; it does not trigger
`updateConfidence`. -/
theorem recordUsage_appends_row_only (db : DB) (u : PatternUsage) :
    (PatternStorage.recordUsage db u).usage =
      db.usage ++ [{ id := db.nextUsageId, patternId := u.patternId,
                     timestamp := u.timestamp, outcome := u.outcome,
                     feedback := u.feedback,
                     adjustments := u.adjustments.map BlobOf.json }] ∧
    (PatternStorage.recordUsage db u).patterns = db.patterns ∧
    (PatternStorage.recordUsage db u).learning = db.learning :=
  ⟨rfl, rfl, rfl⟩

/-- C3 counterexample: after a success usage on a pattern stored at confidence
0.5, the stored confidence is still 0.5, although the confidence-update rule
for a success would have produced 0.6 — `recordUsage` never updates
confidence. -/
theorem recordUsage_no_confidence_counterexample :
    (PatternStorage.recordUsage
        { patterns := [{ id := 1, pattern := "run tests".data, context := "jest".data,
                         timestamp := 0, metadata := none, confidence := 1/2 }],
          nextPatternId := 2 }
        { patternId := 1, timestamp := 5, outcome := .success }).patterns
      = [{ id := 1, pattern := "run tests".data, context := "jest".data,
           timestamp := 0, metadata := none, confidence := 1/2 }] ∧
    PatternStorage.newConfidence (1/2) true {} ≠ 1/2 := by
  exact ⟨rfl, by with_unfolding_all decide⟩

/-- C4 (amended): `PatternStorage.store` inserts exactly one new row whose
text is exactly the input text (no trimming), whose metadata is the
serialization of the input metadata, and whose confidence is exactly the
confidence carried on the input (the input type always carries one; no 0.5
default exists); it returns the new row's id.  The command-key variant's
`storePattern` does trim, but its table has no confidence column at all. -/
theorem store_inserts_exact_row (db : DB) (p : OperationPattern)
    (_hne : p.pattern ≠ []) :
    (PatternStorage.store db p).1.patterns =
      db.patterns ++ [{ id := db.nextPatternId, pattern := p.pattern,
                        context := p.context, timestamp := p.timestamp,
                        metadata := some (BlobOf.json p.metadata),
                        confidence := p.confidence }] ∧
    (PatternStorage.store db p).2 = db.nextPatternId ∧
    (∀ (db2 : V2DB) (q : V2Pattern),
      (LocalStoreV2.storePattern db2 q).1.rows =
        db2.rows ++ [{ id := db2.nextId, pattern := trimStr q.pattern,
                       context := q.context,
                       command := lowerStr (firstTok q.pattern),
                       timestamp := q.timestamp,
                       metadata := q.metadata.map BlobOf.json }]) :=
  ⟨rfl, rfl, fun _ _ => rfl⟩

theorem store_inserts_exact_row_witness :
    ("go".data ≠ ([] : Str)) ∧
    (PatternStorage.store {} { pattern := "go".data, context := "c".data,
                               timestamp := 1, metadata := [], confidence := 1/2 }).2
      = ({} : DB).nextPatternId :=
  ⟨by decide,
   (store_inserts_exact_row {} { pattern := "go".data, context := "c".data,
                                 timestamp := 1, metadata := [], confidence := 1/2 }
     (by decide)).2.1⟩

/-- C4 counterexample: storing a pattern whose text carries leading/trailing
whitespace inserts that text untrimmed, refuting "text is p.text with
leading/trailing whitespace trimmed". -/
theorem store_no_trim_counterexample :
    ((PatternStorage.store {}
        { pattern := " x ".data, context := "c".data, timestamp := 3,
          metadata := [], confidence := 1/2 }).1.patterns.map PatternRow.pattern)
      = [" x ".data] ∧
    trimStr " x ".data ≠ " x ".data := by
  exact ⟨rfl, by decide⟩

/-- C6: on a store holding the single pattern
`{text: "create component Button", context: "react"}`, the query
`findSimilarPattern("create component Card", "react")` returns a pattern whose
context is `"react"`; the word-overlap score of the two texts is in fact 1
((2 shared tokens + 0.5 first-token bonus + 0.5 equal-count bonus) / 3), well
above the 0.3 floor. -/
theorem findSimilarPattern_react_example :
    (∃ p, LocalStoreV2.findSimilarPattern
        (LocalStoreV2.storePattern {}
          { pattern := "create component Button".data, context := "react".data,
            timestamp := 0 }).1
        "create component Card".data (some "react".data) = some p ∧
      p.context = "react".data) ∧
    LocalStoreV2.calculatePatternSimilarity "create component Card".data
      "create component Button".data = 1 := by
  refine ⟨⟨{ id := some 1, pattern := "create component Button".data,
             context := "react".data, timestamp := 0, metadata := none },
           ?_, rfl⟩, ?_⟩
  · with_unfolding_all decide
  · with_unfolding_all decide

/-- C5: round trip — on a store whose serialized metadata blobs are all
well-formed, storing a pattern and then calling `find` on its exact text
succeeds and the returned sequence contains a record whose text, context,
timestamp and deserialized metadata equal the stored pattern's fields
(the inserted row LIKE-matches `'%' + text + '%'` even when the text contains
wildcard characters). -/
theorem store_find_roundtrip (db : DB) (p : OperationPattern)
    (hwf : ∀ r ∈ db.patterns, ∀ s, r.metadata ≠ some (BlobOf.bad s))
    (_hne : p.pattern ≠ []) :
    ∃ l, PatternStorage.find (PatternStorage.store db p).1 p.pattern = .ok l ∧
      ∃ q ∈ l, q.pattern = p.pattern ∧ q.context = p.context ∧
        q.timestamp = p.timestamp ∧ q.metadata = p.metadata := by
  set r0 : PatternRow :=
    { id := db.nextPatternId, pattern := p.pattern, context := p.context,
      timestamp := p.timestamp, metadata := some (BlobOf.json p.metadata),
      confidence := p.confidence } with hr0
  set L := sortTsDesc PatternRow.timestamp
    ((db.patterns ++ [r0]).filter
      (fun r => likeMatch (pctC :: p.pattern ++ [pctC]) r.pattern)) with hL
  have hfind : PatternStorage.find (PatternStorage.store db p).1 p.pattern =
      PatternStorage.mapRowsE L := rfl
  have hallok : ∀ r ∈ L, exceptOk (PatternStorage.rowToPatternE r) = true := by
    intro r hr
    rw [hL, mem_sortTsDesc] at hr
    have hr' := (List.mem_filter.mp hr).1
    rcases List.mem_append.mp hr' with h | h
    · exact rowToPatternE_ok_of_not_bad r (hwf r h)
    · have : r = r0 := List.mem_singleton.mp h
      subst this
      rfl
  have hr0L : r0 ∈ L := by
    rw [hL, mem_sortTsDesc]
    refine List.mem_filter.mpr ⟨List.mem_append_right _ (List.mem_singleton.mpr rfl), ?_⟩
    exact likeMatch_wrap_self p.pattern
  obtain ⟨l, hmap, hlen, hmem⟩ := mapRowsE_ok_of L hallok
  refine ⟨l, by rw [hfind, hmap], ?_⟩
  have hq : PatternStorage.rowToPatternE r0 =
      .ok { id := some r0.id, pattern := p.pattern, context := p.context,
            timestamp := p.timestamp, metadata := p.metadata,
            confidence := p.confidence } := rfl
  exact ⟨_, hmem r0 hr0L _ hq, rfl, rfl, rfl, rfl⟩

/-- Witness for C5 at a concrete store and pattern. -/
theorem store_find_roundtrip_witness :
    ∃ l, PatternStorage.find
        (PatternStorage.store {}
          { pattern := "run tests".data, context := "jest".data, timestamp := 9,
            metadata := [("k".data, "v".data)], confidence := 1/2 }).1
        "run tests".data = .ok l ∧
      ∃ q ∈ l, q.pattern = "run tests".data ∧ q.context = "jest".data ∧
        q.timestamp = 9 ∧ q.metadata = [("k".data, "v".data)] :=
  store_find_roundtrip {}
    { pattern := "run tests".data, context := "jest".data, timestamp := 9,
      metadata := [("k".data, "v".data)], confidence := 1/2 }
    (by simp) (by decide)

/-- C7 counterexample: on a store holding one pattern, the PatternStorage-backed
`findSimilarPattern` called with an empty task text returns that pattern, not
none — `LIKE '%%'` matches every row and no empty-text guard exists. -/
theorem empty_query_matches_counterexample :
    LocalStore.findSimilarPattern
      { patterns := [{ id := 1, pattern := "a".data, context := "c".data,
                       timestamp := 0, metadata := none, confidence := 1/2 }],
        nextPatternId := 2 }
      [] none
      = .ok (some { id := some 1, pattern := "a".data, context := "c".data,
                    timestamp := 0, metadata := [], confidence := 1/2 }) := by
  with_unfolding_all rfl

/-- C7 (amended): with no context hint and well-formed metadata blobs,
`findSimilarPattern` with an empty task text returns none exactly when the
store is empty; the empty query is not specially guarded, it LIKE-matches
every stored pattern. -/
theorem findSimilarPattern_empty_query_iff (db : DB)
    (hwf : ∀ r ∈ db.patterns, ∀ s, r.metadata ≠ some (BlobOf.bad s)) :
    (LocalStore.findSimilarPattern db [] none = .ok none ↔ db.patterns = []) := by
  have hfilter : db.patterns.filter
      (fun r => likeMatch (pctC :: [] ++ [pctC]) r.pattern) = db.patterns :=
    List.filter_eq_self.mpr (fun a _ => likeMatch_pct_pct a.pattern)
  have hallok : ∀ r ∈ sortTsDesc PatternRow.timestamp
      (db.patterns.filter (fun r => likeMatch (pctC :: [] ++ [pctC]) r.pattern)),
      exceptOk (PatternStorage.rowToPatternE r) = true := by
    intro r hr
    rw [mem_sortTsDesc, hfilter] at hr
    exact rowToPatternE_ok_of_not_bad r (hwf r hr)
  obtain ⟨l, hmap, hlen, _⟩ := mapRowsE_ok_of _ hallok
  have hfind : PatternStorage.find db [] = .ok l := hmap
  have hlen2 : l.length = db.patterns.length := by
    rw [hlen, length_sortTsDesc, hfilter]
  have hiff : l = [] ↔ db.patterns = [] := by
    rw [← List.length_eq_zero, ← List.length_eq_zero, hlen2]
  rw [LocalStore.findSimilarPattern, hfind]
  cases hl : l with
  | nil =>
    simp only [List.isEmpty_nil, if_true]
    simp [hiff.mp hl]
  | cons a t =>
    simp only [List.isEmpty_cons, Bool.false_eq_true, if_false, List.head?_cons]
    constructor
    · intro h; exact absurd h (by simp)
    · intro h
      exact absurd (hiff.mpr h) (by simp [hl])

/-- Witness for C7's amended statement at the empty store. -/
theorem findSimilarPattern_empty_query_iff_witness :
    (LocalStore.findSimilarPattern {} [] none = .ok none ↔ ({} : DB).patterns = []) :=
  findSimilarPattern_empty_query_iff {} (by simp)

/-- C9 counterexample: with a stored row whose metadata blob is malformed, the
PatternStorage-backed `findSimilarPattern` throws (the `JSON.parse` inside
`find`'s row mapping is not wrapped in `try`/`catch`). -/
theorem findSimilarPattern_throws_counterexample :
    LocalStore.findSimilarPattern
      { patterns := [{ id := 1, pattern := "a".data, context := "c".data,
                       timestamp := 0, metadata := some (BlobOf.bad "oops".data),
                       confidence := 1/2 }],
        nextPatternId := 2 }
      "a".data none = .error () := by
  with_unfolding_all rfl

/-- C9 (amended): the command-key variant degrades a malformed metadata blob
to a metadata-less converted pattern (its parses are caught), while the
PatternStorage-backed `findSimilarPattern` succeeds exactly when every stored
row matching the `LIKE '%query%'` filter has a parseable metadata blob — a
single malformed candidate blob makes the whole lookup throw. -/
theorem lookup_parse_degradation :
    (∀ (r : V2Row) (s : Str), r.metadata = some (BlobOf.bad s) →
      (LocalStoreV2.convertRowToPattern r).metadata = none) ∧
    (∀ (db : DB) (q : Str) (ctx : Option Str),
      exceptOk (LocalStore.findSimilarPattern db q ctx) = true ↔
        ∀ r ∈ db.patterns, likeMatch (pctC :: q ++ [pctC]) r.pattern = true →
          exceptOk (PatternStorage.rowToPatternE r) = true) := by
  constructor
  · intro r s h
    simp [LocalStoreV2.convertRowToPattern, h, BlobOf.parse]
  · intro db q ctx
    have hchain : exceptOk (LocalStore.findSimilarPattern db q ctx) =
        exceptOk (PatternStorage.find db q) := by
      rw [LocalStore.findSimilarPattern]
      cases hf : PatternStorage.find db q with
      | error e => rfl
      | ok l =>
        simp only
        split
        · rfl
        · cases ctx with
          | none => rfl
          | some c =>
            simp only
            split <;> rfl
    rw [hchain]
    have hfind : PatternStorage.find db q = PatternStorage.mapRowsE
        (sortTsDesc PatternRow.timestamp (db.patterns.filter
          (fun r => likeMatch (pctC :: q ++ [pctC]) r.pattern))) := rfl
    rw [hfind, mapRowsE_ok_iff]
    constructor
    · intro h r hr hlike
      exact h r (by rw [mem_sortTsDesc]; exact List.mem_filter.mpr ⟨hr, hlike⟩)
    · intro h r hr
      rw [mem_sortTsDesc] at hr
      obtain ⟨hr1, hr2⟩ := List.mem_filter.mp hr
      exact h r hr1 hr2

/-- Witness for C9's amended statement: a concrete malformed row degrades to
no metadata, and the characterization instantiated at the empty store. -/
theorem lookup_parse_degradation_witness :
    (LocalStoreV2.convertRowToPattern
        { id := 1, pattern := "a".data, context := "c".data, command := "a".data,
          timestamp := 0, metadata := some (BlobOf.bad "oops".data) }).metadata = none ∧
    (exceptOk (LocalStore.findSimilarPattern {} "a".data none) = true ↔
      ∀ r ∈ ({} : DB).patterns, likeMatch (pctC :: "a".data ++ [pctC]) r.pattern = true →
        exceptOk (PatternStorage.rowToPatternE r) = true) :=
  ⟨lookup_parse_degradation.1 _ "oops".data rfl,
   lookup_parse_degradation.2 {} "a".data none⟩

/-- C8: on the three-message transcript [plain text "Fix empty array test
failure" at `t`, a JSON-parseable tool message at `t+100`, plain text "Tests
passing now" at `t+200`], `chunkMessages` returns exactly one chunk; it has
exactly one `tool_usage` checkpoint and a `completion` checkpoint with success
true, and `determineOutcome` resolves it to success. -/
theorem chunkMessages_three_message_success
    (t : Nat) (jsonOk : Str → Bool) (toolText : Str)
    (h1 : toolText ≠ []) (h2 : jsonOk toolText = true) :
    ∃ ch, MessageChunker.chunkMessages jsonOk
        [{ ts := t, say := .text, text := some "Fix empty array test failure".data },
         { ts := t + 100, say := .tool, text := some toolText },
         { ts := t + 200, say := .text, text := some "Tests passing now".data }]
      = [ch] ∧
      (ch.checkpoints.filter (fun cp => decide (cp.type = CpType.tool_usage))).length = 1 ∧
      (∃ cp ∈ ch.checkpoints, cp.type = CpType.completion ∧ cp.success = some true) ∧
      LogPatternExtractor.determineOutcome ch = Outcome.success := by
  obtain ⟨c0, cs, rfl⟩ : ∃ c0 cs, toolText = c0 :: cs := by
    cases toolText with
    | nil => exact absurd rfl h1
    | cons a b => exact ⟨a, b, rfl⟩
  set m1 : ClineMessage :=
    { ts := t, say := .text, text := some "Fix empty array test failure".data } with hm1
  set m2 : ClineMessage := { ts := t + 100, say := .tool, text := some (c0 :: cs) } with hm2
  set m3 : ClineMessage :=
    { ts := t + 200, say := .text, text := some "Tests passing now".data } with hm3
  set cp1 : Checkpoint :=
    { ts := t, type := .start, message := "Fix empty array test failure".data } with hcp1
  set cp2 : Checkpoint :=
    { ts := t + 100, type := .tool_usage, message := c0 :: cs, success := some true } with hcp2
  set cp3 : Checkpoint :=
    { ts := t + 200, type := .completion, message := "Tests passing now".data,
      success := some true } with hcp3
  set ch1 : TaskChunk :=
    { startTs := t, endTs := t, messages := [m1], checkpoints := [cp1] } with hch1
  set ch2 : TaskChunk :=
    { startTs := t, endTs := t + 100, messages := [m1, m2],
      checkpoints := [cp1, cp2] } with hch2
  set ch3 : TaskChunk :=
    { startTs := t, endTs := t + 200, messages := [m1, m2, m3],
      checkpoints := [cp1, cp2, cp3] } with hch3
  have step1 : MessageChunker.chunkStep jsonOk ⟨[], none⟩ m1 = ⟨[], some ch1⟩ := by
    with_unfolding_all rfl
  have hpm2 : MessageChunker.processMessage jsonOk m2 ch1 = ch2 := by
    simp only [MessageChunker.processMessage, hm2, Option.getD_some, h2, if_true, hch1,
      hch2, hcp1, hcp2, hm1]
    rfl
  have step2 : MessageChunker.chunkStep jsonOk ⟨[], some ch1⟩ m2 = ⟨[], some ch2⟩ := by
    have step2a : MessageChunker.chunkStep jsonOk ⟨[], some ch1⟩ m2 =
        ⟨[], some (MessageChunker.processMessage jsonOk m2 ch1)⟩ := by
      with_unfolding_all rfl
    rw [step2a, hpm2]
  have step3 : MessageChunker.chunkStep jsonOk ⟨[], some ch2⟩ m3 = ⟨[ch3], none⟩ := by
    with_unfolding_all rfl
  have hvalid : MessageChunker.validChunk ch3 = true := by
    rw [MessageChunker.validChunk]
    have e1 : ch3.checkpoints.length = 3 := rfl
    have e2 : ch3.messages.length = 3 := rfl
    have e3 : ch3.endTs - ch3.startTs = 200 := by
      rw [hch3]; show t + 200 - t = 200; omega
    rw [e1, e2, e3]
    rfl
  refine ⟨ch3, ?_, ?_, ?_, ?_⟩
  · rw [MessageChunker.chunkMessages]
    simp only [List.foldl_cons, List.foldl_nil]
    rw [step1, step2, step3]
    show List.filter MessageChunker.validChunk [ch3] = [ch3]
    simp [hvalid]
  · rw [hch3, hcp1, hcp2, hcp3]
    rfl
  · exact ⟨cp3, by rw [hch3]; simp, by rw [hcp3], by rw [hcp3]⟩
  · rw [hch3, hcp1, hcp2, hcp3]
    rfl

/-- Witness for C8 at `t = 0` with an always-parseable oracle. -/
theorem chunkMessages_three_message_success_witness :
    (("w".data : Str) ≠ []) ∧
    ∃ ch, MessageChunker.chunkMessages (fun _ => true)
        [{ ts := 0, say := .text, text := some "Fix empty array test failure".data },
         { ts := 0 + 100, say := .tool, text := some "w".data },
         { ts := 0 + 200, say := .text, text := some "Tests passing now".data }]
      = [ch] ∧
      (ch.checkpoints.filter (fun cp => decide (cp.type = CpType.tool_usage))).length = 1 ∧
      (∃ cp ∈ ch.checkpoints, cp.type = CpType.completion ∧ cp.success = some true) ∧
      LogPatternExtractor.determineOutcome ch = Outcome.success :=
  ⟨by decide,
   chunkMessages_three_message_success 0 (fun _ => true) "w".data (by decide) rfl⟩

/-- C10: `LearningStorage.store` persists the base pattern row with confidence
exactly 1.0 — the confidence carried on the input `LearningPattern` does not
appear in the inserted row — and returns the new base pattern id. -/
theorem learningStore_confidence_one (db : DB) (p : LearningPattern) :
    (LearningStorage.store db p).1.patterns =
      db.patterns ++
        [{ id := db.nextPatternId, pattern := p.pattern,
           context := serializeProjectContext p.projectContext,
           timestamp := p.timestamp, metadata := some (BlobOf.json p.metadata),
           confidence := 1 }] ∧
    (LearningStorage.store db p).2 = db.nextPatternId :=
  ⟨rfl, rfl⟩

end SAC
